import Mathlib

/-!
Verification of the contactless wind-speed sensor's ingestion and
calibration code (`datalogger.py`, `calibrate_speed.py`).

Conventions of the shallow embedding:
* Machine floats are modelled as `ℚ` where the code does exact-looking
  arithmetic (timestamps, config values) and as `ℝ` where it does
  transcendental numerics (`tan`, `sqrt`, least squares, RMSE).
* Fallible code (`raise`, `KeyError`, `ValueError`) is modelled with
  `Except String`.
* Library calls that are pure DSP black boxes (`scipy.signal.butter` +
  `sosfilt`) are abstracted as a function parameter; everything written
  in the repository itself is translated definition by definition.
-/

namespace Sensor

/-! ## Source adapter (`datalogger.read_stream_to_queue`)

The adapter strips a line, skips it when empty, splits on commas, takes
the last field, parses it as a float and enqueues the value on success;
on a parse failure it continues with the next line.  The float parser
itself is Python's `float` builtin, kept abstract as `parse`; the one
fact of `float` the control flow relies on is that `float("")` raises,
which theorems take as a hypothesis. -/

/-- Python's `str.strip()` on the character list: whitespace removed
from both ends. -/
def stripChars (l : List Char) : List Char :=
  ((l.dropWhile Char.isWhitespace).reverse.dropWhile Char.isWhitespace).reverse

/-- Python's `str.strip()`. -/
def pyStrip (s : String) : String := ⟨stripChars s.data⟩

/-- Python's `s.split(',')` on the character list; the result is never
empty (the empty string splits to one empty field). -/
def splitFields : List Char → List (List Char)
  | [] => [[]]
  | c :: rest =>
      match splitFields rest with
      | [] => [[c]]
      | f :: fs => if c = ',' then [] :: f :: fs else (c :: f) :: fs

/-- The last comma-separated field of a string, as
`line_str.split(',')[-1]` computes it (`split` never returns an empty
list, so `[-1]` is total). -/
def lastField (s : String) : String :=
  ⟨(splitFields s.data).getLastD []⟩

/-- Values enqueued for a single delivered line by
`read_stream_to_queue`: strip, skip empty, split on `','`, parse the
last field, enqueue on success, drop the line on failure. -/
def processLine (parse : String → Option ℚ) (line : String) : List ℚ :=
  let s := pyStrip line
  if s.data.isEmpty then []
  else
    match parse (lastField s) with
    | some v => [v]
    | none => []

/-- Values enqueued for a whole stream of delivered lines. -/
def readStreamValues (parse : String → Option ℚ) (lines : List String) : List ℚ :=
  lines.flatMap (processLine parse)

/-! ## Ingestion coordinator shutdown (`datalogger.main`)

`main` acquires four resources (the live display figure, the worker
subprocess, the serial handle, the CSV log) and releases them in a
`finally` block (the log through a `with` block).  The model tracks each
resource's lifecycle through every exit path of `main`. -/

/-- Lifecycle state of one resource owned by `datalogger.main`. -/
inductive RState where
  | notAcquired
  | acquired
  | released
deriving DecidableEq, Repr

/-- Resources owned by `datalogger.main`. -/
structure Resources where
  display : RState
  worker : RState
  serialDev : RState
  log : RState
deriving DecidableEq, Repr

/-- The ways `datalogger.main` can leave its `try` block: the worker
subprocess fails to spawn, the serial device fails to open
(`serial.SerialException`), the worker process exits (also the normal
completion of a logging run), `KeyboardInterrupt`, or any other
exception raised inside the main loop. -/
inductive ExitPath where
  | spawnFail
  | serialOpenFail
  | workerExit
  | interrupt
  | mainLoopError
deriving DecidableEq, Repr

/-- Resource lifecycle of one run of `datalogger.main`: the `try` block
acquires resources up to the point dictated by the exit path (the
`with open(...)` block releases the log on any exit), the
`except SerialException` handler closes the figure and returns, and the
`finally` block closes the figure, terminates and awaits the worker when
it was spawned, and closes the serial device when it is open. -/
def runMain (plot : Bool) (path : ExitPath) : Resources :=
  let r0 : Resources :=
    { display := if plot then .acquired else .notAcquired
      worker := .notAcquired, serialDev := .notAcquired, log := .notAcquired }
  let afterTry : Resources :=
    match path with
    | .spawnFail => r0
    | .serialOpenFail =>
        -- worker spawned; `except SerialException` closes the figure, returns
        { r0 with worker := .acquired
                  display := if plot then .released else r0.display }
    | _ =>
        -- worker spawned, serial opened, log opened by `with`; the loop
        -- exits (worker exit / interrupt / exception) and the `with`
        -- block closes the log on the way out
        { r0 with worker := .acquired, serialDev := .acquired, log := .released }
  -- the `finally` block
  let r1 := { afterTry with display := if plot then .released else afterTry.display }
  let r2 := { r1 with worker := if r1.worker = RState.acquired then .released else r1.worker }
  { r2 with serialDev := if r2.serialDev = RState.acquired then .released else r2.serialDev }

/-! ## Configuration store (`config.json` as `calibrate_speed.py` uses it)

Only the keys the calibration command touches are modelled; optional
JSON keys become `Option` fields (`none` models a `KeyError` on read). -/

/-- Calibration side selector (`--side {left,right}`). -/
inductive Side where
  | left
  | right
deriving DecidableEq, Repr

/-- One `{order, cutoff_hz}` filter-parameter group. -/
structure SideParams where
  order : ℕ
  cutoff : ℚ
deriving DecidableEq, Repr

/-- The slice of `config.json` read and written by `calibrate_speed.py`:
`conversion_params.<side>.scale_constant`, the side-keyed groups
`butterworth_filter.left/right`, and the top-level keys
`butterworth_filter.order` / `butterworth_filter.cutoff_hz`. -/
structure Config where
  scaleLeft : ℚ
  scaleRight : ℚ
  butterLeft : Option SideParams
  butterRight : Option SideParams
  butterOrder : Option ℕ
  butterCutoff : Option ℚ
deriving DecidableEq, Repr

/-- Reads `config["conversion_params"][side]["scale_constant"]`. -/
def scaleOf (c : Config) : Side → ℚ
  | .left => c.scaleLeft
  | .right => c.scaleRight

/-- Reads `config["butterworth_filter"][side]`. -/
def butterSideOf (c : Config) : Side → Option SideParams
  | .left => c.butterLeft
  | .right => c.butterRight

/-- Performs `config["conversion_params"][side]["scale_constant"] = k`. -/
def setScale (c : Config) (side : Side) (k : ℚ) : Config :=
  match side with
  | .left => { c with scaleLeft := k }
  | .right => { c with scaleRight := k }

/-- Performs `config["butterworth_filter"][side] = ...` with the pair. -/
def setButterSide (c : Config) (side : Side) (p : SideParams) : Config :=
  match side with
  | .left => { c with butterLeft := some p }
  | .right => { c with butterRight := some p }

/-- Embeds `calibrate_speed.save_results`: ask to save `k`; when optimised
filter parameters were accepted for the session, ask to save them too;
write the updated copy of the config only if at least one answer was
yes.  `ansK`/`ansF` are the interactive answers; the result is `some`
of the written config, or `none` when no write happens. -/
def save_results (k : ℚ) (accepted : Option SideParams) (cfg : Config)
    (side : Side) (ansK ansF : Bool) : Option Config :=
  let st1 : Config × Bool := if ansK then (setScale cfg side k, true) else (cfg, false)
  let st2 : Config × Bool :=
    match accepted with
    | some p => if ansF then (setButterSide st1.1 side p, true) else st1
    | none => st1
  if st2.2 then some st2.1 else none

/-- Embeds `calibrate_speed.apply_filter`'s parameter lookup: it reads
`filter_params["cutoff_hz"]` then `filter_params["order"]` from the
top-level `butterworth_filter` mapping, raising `KeyError` on a missing
key.  (The subsequent `signal.butter`/`sosfilt` call is external DSP and
not part of the lookup behaviour this models.) -/
def apply_filter_lookup (c : Config) : Except String (ℕ × ℚ) :=
  match c.butterCutoff with
  | none => .error "KeyError: cutoff_hz"
  | some cut =>
      match c.butterOrder with
      | none => .error "KeyError: order"
      | some o => .ok (o, cut)

/-- The in-session mutation in `calibrate_speed.main`: when the user ran
the optimisation and accepted its result for the session, the top-level
`butterworth_filter.order` and `.cutoff_hz` keys are overwritten with
the optimised pair; otherwise the config is untouched. -/
def sessionConfig (c : Config) (optimised : Option SideParams) (useSession : Bool) : Config :=
  match optimised with
  | some p =>
      if useSession then { c with butterOrder := some p.order, butterCutoff := some p.cutoff }
      else c
  | none => c

/-- The filter-application step of `calibrate_speed.main`: apply the
session mutation, then look the filter parameters up from the top-level
keys. -/
def mainFilterLookup (c : Config) (optimised : Option SideParams)
    (useSession : Bool) : Except String (ℕ × ℚ) :=
  apply_filter_lookup (sessionConfig c optimised useSession)

/-! ## Calibration aligner (`calibrate_speed.load_and_prepare_data`)

The persisted log is a list of rows `{timestamp, source, measurement}`;
timestamps are int64 nanoseconds, modelled in `ℚ`.  The aligner filters
by source tag in row order (pandas boolean indexing preserves row
order and `load_and_prepare_data` performs no sort), drops the first
`START_IDX` ground-truth rows, and calls `np.interp`. -/

/-- One persisted log row. -/
structure LogRow where
  timestamp : ℚ
  source : String
  measurement : ℚ
deriving DecidableEq, Repr

/-- Warm-up prefix of ground-truth rows skipped by the aligner. -/
def START_IDX : ℕ := 2700

/-- Computes `raw_data[raw_data["source"] == "vision_sensor"]`, in row order. -/
def visionRows (rows : List LogRow) : List LogRow :=
  rows.filter (fun r => r.source == "vision_sensor")

/-- Computes `raw_data[raw_data["source"] == "ground_truth_serial"].iloc[START_IDX:]`,
in row order. -/
def groundTruthRows (rows : List LogRow) : List LogRow :=
  (rows.filter (fun r => r.source == "ground_truth_serial")).drop START_IDX

/-- Embeds `np.interp` at one query point over `(xp, fp)` pairs sorted by `xp`:
clamp to the first value left of the range and to the last value right
of it, and interpolate linearly inside the containing segment. -/
def interpSeg (x : ℚ) : List (ℚ × ℚ) → ℚ
  | [] => 0
  | [(_, v)] => v
  | (t1, v1) :: (t2, v2) :: rest =>
      if x < t1 then v1
      else if x ≤ t2 then v1 + (x - t1) * (v2 - v1) / (t2 - t1)
      else interpSeg x ((t2, v2) :: rest)

/-- Embeds `np.interp(xs, xp, fp)`: raises `ValueError` when the sample-point
array `xp` is empty, otherwise evaluates every query point. -/
def npInterp (xs : List ℚ) (pts : List (ℚ × ℚ)) : Except String (List ℚ) :=
  if pts.isEmpty then .error "ValueError: array of sample points is empty"
  else .ok (xs.map fun x => interpSeg x pts)

/-- Embeds `calibrate_speed.load_and_prepare_data` on the decoded log rows:
split by source tag (row order preserved), skip the ground-truth
warm-up prefix, interpolate the vision series onto the ground-truth
timestamp grid.  Returns the interpolated vision values and the
ground-truth rows. -/
def load_and_prepare_data (rows : List LogRow) : Except String (List ℚ × List LogRow) :=
  match npInterp ((groundTruthRows rows).map fun r => r.timestamp)
      ((visionRows rows).map fun r => (r.timestamp, r.measurement)) with
  | .error e => .error e
  | .ok vi => .ok (vi, groundTruthRows rows)

/-- Row order by the timestamp field. -/
def tsLE (a b : LogRow) : Prop := a.timestamp ≤ b.timestamp

instance : DecidableRel tsLE :=
  fun a b => inferInstanceAs (Decidable (a.timestamp ≤ b.timestamp))

/-- Modelled from the spec: the aligner as §4.3 describes it, which
"re-sorts each [series] by timestamp defensively" after splitting and
before interpolating — identical to `load_and_prepare_data` except that
the vision series and the retained ground-truth series are sorted by
their timestamp field first. -/
def load_and_prepare_sorted (rows : List LogRow) : Except String (List ℚ × List LogRow) :=
  match npInterp (((groundTruthRows rows).insertionSort tsLE).map fun r => r.timestamp)
      (((visionRows rows).insertionSort tsLE).map fun r => (r.timestamp, r.measurement)) with
  | .error e => .error e
  | .ok vi => .ok (vi, (groundTruthRows rows).insertionSort tsLE)

deriving instance DecidableEq for Except

/-! ## Inferred sample rate (`calibrate_speed.main`, line with `fs = ...`)

`fs = 1 / ((ground_truth["timestamp"].iloc[1] - ground_truth["timestamp"].iloc[0]) / 1e9)`. -/

/-- The sample rate `calibrate_speed.main` computes: the reciprocal of
the interval between the first two ground-truth timestamps, converted
from nanoseconds to seconds.  Raises `IndexError` on a series shorter
than two samples (`.iloc[1]`). -/
def inferFs (ts : List ℚ) : Except String ℚ :=
  match ts with
  | t0 :: t1 :: _ => .ok (1 / ((t1 - t0) / 1000000000))
  | _ => .error "IndexError: single positional indexer is out-of-bounds"

/-- Modelled from the spec: the sample rate as §4.4 describes it, the
reciprocal of the mean over all consecutive timestamp differences
(nanoseconds to seconds). -/
def meanIntervalFs (ts : List ℚ) : Except String ℚ :=
  match ts with
  | _ :: _ :: _ =>
      let diffs := List.zipWith (fun a b => b - a) ts ts.tail
      .ok (1 / ((diffs.sum / diffs.length) / 1000000000))
  | _ => .error "IndexError: single positional indexer is out-of-bounds"

/-! ## Parameter solver (`calibrate_speed.calibrate_and_convert_to_windspeed`)

`wind_speed = sqrt(|tan(deg2rad(vision_interpolated))|)` and
`k = lstsq(wind_speed, ground_truth)`.  For a single-column system
`np.linalg.lstsq` returns the least-squares solution
`k = Σ(g·t) / Σ(t²)`; the minimisation theorem below justifies this
embedding of the library call. -/

/-- Embeds `np.deg2rad`. -/
noncomputable def deg2rad (a : ℝ) : ℝ := a * Real.pi / 180

/-- The per-sample transform `sqrt(|tan(angle_in_radians)|)` applied to
one vision angle sample (degrees). -/
noncomputable def windSpeedTransform (a : ℝ) : ℝ :=
  Real.sqrt |Real.tan (deg2rad a)|

/-- Sum of squared entries, `Σ tᵢ²`. -/
noncomputable def sumSq (t : List ℝ) : ℝ := (t.map fun x => x ^ 2).sum

/-- Sum of pairwise products, `Σ gᵢ·tᵢ`. -/
noncomputable def sumProd (g t : List ℝ) : ℝ := (List.zipWith (fun a b => a * b) g t).sum

/-- The single-column least-squares solve inside
`calibrate_and_convert_to_windspeed`: `np.linalg.lstsq` on the column
`t` against the target `g`, i.e. `k = Σ(g·t) / Σ(t²)`. -/
noncomputable def solveK (t g : List ℝ) : ℝ := sumProd g t / sumSq t

/-- The residual `Σ (gᵢ − k·tᵢ)²` the least-squares solve minimises. -/
noncomputable def residual (t g : List ℝ) (k : ℝ) : ℝ :=
  (List.zipWith (fun gi ti => (gi - k * ti) ^ 2) g t).sum

/-- Embeds `calibrate_and_convert_to_windspeed`'s scale constant: transform the
interpolated vision angles, then solve for `k` against the ground-truth
measurements. -/
noncomputable def calibrateK (vision g : List ℝ) : ℝ :=
  solveK (vision.map windSpeedTransform) g

/-- Embeds `rmse(y_true, y_pred) = sqrt(mean((y_true - y_pred)**2))`. -/
noncomputable def rmse (yTrue yPred : List ℝ) : ℝ :=
  Real.sqrt ((List.zipWith (fun a b => (a - b) ^ 2) yTrue yPred).sum / yTrue.length)

/-! ## Filter grid search (`calibrate_speed.optimise_filter_parameters`)

`orders = range(2, 7)`, `cutoffs = np.arange(0.1, 1.5, 0.05)` (28
values), outer loop over orders, inner loop over cutoffs, keep the
first pair whose error is strictly below the running minimum
(`if error < min_rmse`).  The Butterworth design + `sosfilt` +
`rmse` evaluation is abstracted as the error function `err`; the state
starts at `min_rmse = inf`, modelled as `none` (every real error beats
it). -/

/-- Embeds `range(2, 7)`. -/
def gridOrders : List ℕ := [2, 3, 4, 5, 6]

/-- Embeds `np.arange(0.1, 1.5, 0.05)`: the 28 values `0.1 + 0.05·i`. -/
def gridCutoffs : List ℚ := (List.range 28).map fun i => 1 / 10 + (5 / 100) * i

/-- The `(order, cutoff)` pairs in the loop's iteration order:
increasing order outermost, increasing cutoff innermost. -/
def filterGrid : List (ℕ × ℚ) :=
  gridOrders.flatMap fun o => gridCutoffs.map fun c => (o, c)

/-- One iteration of the search loop: replace the incumbent when the
candidate's error is strictly smaller (so ties keep the incumbent); a
`none` incumbent is the initial `min_rmse = inf`, beaten by anything. -/
def searchStep {α : Type} [LinearOrder α] (err : ℕ × ℚ → α)
    (st : Option ((ℕ × ℚ) × α)) (p : ℕ × ℚ) : Option ((ℕ × ℚ) × α) :=
  match st with
  | none => some (p, err p)
  | some (best, m) => if err p < m then some (p, err p) else some (best, m)

/-- Embeds `optimise_filter_parameters`' grid search, with the per-pair error
evaluation `err` (design the filter, apply it, take the RMSE against
ground truth) abstracted. -/
def optimise_filter_parameters {α : Type} [LinearOrder α]
    (err : ℕ × ℚ → α) : Option ((ℕ × ℚ) × α) :=
  filterGrid.foldl (searchStep err) none

/-- The error `optimise_filter_parameters` evaluates at a grid pair:
the RMSE between the ground-truth measurements and the low-pass
filtered scaled vision series, with the filter (`signal.butter` +
`signal.sosfilt` at sample rate `fs`) abstracted as `filt`. -/
noncomputable def gridErr (filt : ℕ → ℚ → List ℝ → List ℝ)
    (windSpeed gt : List ℝ) (p : ℕ × ℚ) : ℝ :=
  rmse gt (filt p.1 p.2 windSpeed)

/-- The side a calibration run is not writing to. -/
def otherSide : Side → Side
  | .left => .right
  | .right => .left

/-- A concrete float parser for witnesses: accepts exactly `"42"`. -/
def demoParse : String → Option ℚ := fun s => if s = "42" then some 42 else none

/-- A concrete config for witnesses: filter parameters present only
under the side keys, top-level `order`/`cutoff_hz` absent. -/
def demoConfig : Config :=
  { scaleLeft := 1, scaleRight := 1
    butterLeft := some ⟨4, 1⟩, butterRight := none
    butterOrder := none, butterCutoff := none }

/-! ## Theorems -/

/-- C1: on every exit path of `datalogger.main` — normal completion /
worker exit, interrupt, exception in the main loop, serial-open
failure, and even a failed worker spawn — the shutdown sequence leaves
no resource still acquired: the display, worker process, serial device
and log file are each either never acquired or released. -/
theorem shutdown_releases_all_resources (plot : Bool) (path : ExitPath) :
    (runMain plot path).display ≠ RState.acquired ∧
    (runMain plot path).worker ≠ RState.acquired ∧
    (runMain plot path).serialDev ≠ RState.acquired ∧
    (runMain plot path).log ≠ RState.acquired := by
  cases plot <;> cases path <;> decide

/-- C2: a Source Adapter enqueues, for each delivered line, exactly the
successful parse of the line's last comma-separated field and nothing
otherwise — in particular nothing for an empty (or all-whitespace)
line, since the float parser rejects the empty string. -/
theorem adapter_enqueues_exactly_parsed_value (parse : String → Option ℚ)
    (hEmpty : parse "" = none) (line : String) :
    processLine parse line = (parse (lastField (pyStrip line))).toList := by
  unfold processLine
  by_cases h : (pyStrip line).data.isEmpty
  · have h0 : pyStrip line = "" := by
      cases hs : (pyStrip line).data with
      | nil =>
          cases hp : pyStrip line with
          | mk d => cases hp ▸ hs; rfl
      | cons c cs => rw [hs] at h; simp at h
    simp only [h, if_true, h0]
    have hlf : lastField "" = "" := rfl
    rw [hlf, hEmpty]
    rfl
  · simp only [h, if_false]
    cases parse (lastField (pyStrip line)) <;> rfl

/-- Witness for C2 at a concrete line and parser. -/
theorem adapter_enqueues_exactly_parsed_value_witness :
    processLine demoParse "a,b,42" = [(42 : ℚ)] :=
  (adapter_enqueues_exactly_parsed_value demoParse rfl "a,b,42").trans (by decide)

theorem sumSq_cons (x : ℝ) (xs : List ℝ) : sumSq (x :: xs) = x ^ 2 + sumSq xs := by
  simp [sumSq]

theorem sumProd_cons (a b : ℝ) (g t : List ℝ) :
    sumProd (a :: g) (b :: t) = a * b + sumProd g t := by
  simp [sumProd]

theorem sumSq_nonneg (t : List ℝ) : 0 ≤ sumSq t := by
  induction t with
  | nil => simp [sumSq]
  | cons x xs ih =>
      rw [sumSq_cons]
      have := sq_nonneg x
      linarith

theorem sumSq_pos (t : List ℝ) (hne : t ≠ []) (hp : ∀ x ∈ t, 0 < x) :
    0 < sumSq t := by
  cases t with
  | nil => exact absurd rfl hne
  | cons x xs =>
      rw [sumSq_cons]
      have hx : 0 < x := hp x (List.mem_cons_self x xs)
      have := sumSq_nonneg xs
      nlinarith

/-- Helper: a vision series equal to twice the transformed column has
pairwise-product sum twice the squared sum. -/
theorem sumProd_double (t : List ℝ) :
    sumProd (t.map fun x => 2 * x) t = 2 * sumSq t := by
  induction t with
  | nil => simp [sumProd, sumSq]
  | cons x xs ih =>
      rw [List.map_cons, sumProd_cons, sumSq_cons, ih]
      ring

/-- Helper: the residual as a quadratic in `k`. -/
theorem residual_expand (t g : List ℝ) (k : ℝ) (h : g.length = t.length) :
    residual t g k =
      (g.map fun x => x ^ 2).sum - 2 * k * sumProd g t + k ^ 2 * sumSq t := by
  induction g generalizing t with
  | nil =>
      cases t with
      | nil => simp [residual, sumProd, sumSq]
      | cons x xs => simp at h
  | cons gi gs ih =>
      cases t with
      | nil => simp at h
      | cons ti ts =>
          simp only [List.length_cons, Nat.succ_inj] at h
          simp only [residual, List.zipWith_cons_cons, List.sum_cons, List.map_cons]
          rw [show (List.zipWith (fun gi ti => (gi - k * ti) ^ 2) gs ts).sum
              = residual ts gs k from rfl, ih ts h, sumProd_cons, sumSq_cons]
          ring

/-- Helper: the transform is positive on angles strictly between 0° and
80° (the tangent of `deg2rad a` is positive below π/2). -/
theorem windSpeedTransform_pos (a : ℝ) (h0 : 0 < a) (h80 : a < 80) :
    0 < windSpeedTransform a := by
  rw [windSpeedTransform]
  apply Real.sqrt_pos.mpr
  rw [abs_pos]
  apply ne_of_gt
  apply Real.tan_pos_of_pos_of_lt_pi_div_two
  · rw [deg2rad]
    have hπ := Real.pi_pos
    positivity
  · rw [deg2rad]
    have hπ := Real.pi_pos
    nlinarith

/-- C3: the scale solver transforms each vision angle via
`sqrt(|tan(deg2rad a)|)` and returns the closed-form origin
least-squares solution `k = Σ(g·t)/Σ(t²)` — its residual is minimal
among all `k` — and on noiseless data `g = 2·sqrt(|tan(angle)|)` with
angles in (0°, 80°) it recovers `k = 2` within 1e-6. -/
theorem scale_solver_least_squares_and_recovery :
    (∀ t g : List ℝ, ∀ k : ℝ, g.length = t.length → 0 < sumSq t →
      residual t g (solveK t g) ≤ residual t g k) ∧
    (∀ angles : List ℝ, angles ≠ [] → (∀ a ∈ angles, 0 < a ∧ a < 80) →
      |calibrateK angles ((angles.map windSpeedTransform).map fun x => 2 * x) - 2|
        < 1 / 1000000) := by
  constructor
  · intro t g k hlen hS2
    rw [residual_expand t g _ hlen, residual_expand t g k hlen, solveK]
    have hs : sumSq t ≠ 0 := ne_of_gt hS2
    have h1 : sumProd g t / sumSq t * sumSq t = sumProd g t := div_mul_cancel₀ _ hs
    have hc2 : (sumProd g t / sumSq t) ^ 2 * sumSq t
        = sumProd g t / sumSq t * sumProd g t := by
      rw [pow_two, mul_assoc, h1]
    have hkc : k * (sumProd g t / sumSq t) * sumSq t = k * sumProd g t := by
      rw [mul_assoc, h1]
    nlinarith [mul_nonneg (sq_nonneg (k - sumProd g t / sumSq t)) (le_of_lt hS2),
      hc2, hkc]
  · intro angles hne hrange
    have ht : ∀ x ∈ angles.map windSpeedTransform, 0 < x := by
      intro x hx
      obtain ⟨a, ha, rfl⟩ := List.mem_map.mp hx
      exact windSpeedTransform_pos a (hrange a ha).1 (hrange a ha).2
    have htne : angles.map windSpeedTransform ≠ [] := by
      simpa using hne
    have hS2 : 0 < sumSq (angles.map windSpeedTransform) :=
      sumSq_pos _ htne ht
    have hk : calibrateK angles ((angles.map windSpeedTransform).map fun x => 2 * x) = 2 := by
      rw [calibrateK, solveK, sumProd_double]
      field_simp
    rw [hk]
    norm_num

/-- Witness for C3 at concrete series. -/
theorem scale_solver_least_squares_and_recovery_witness :
    residual [1] [2] (solveK [1] [2]) ≤ residual [1] [2] 0 ∧
    |calibrateK [(45 : ℝ)]
        (([(45 : ℝ)].map windSpeedTransform).map fun x => 2 * x) - 2|
      < 1 / 1000000 := by
  constructor
  · exact scale_solver_least_squares_and_recovery.1 [1] [2] 0 (by simp)
      (by rw [show sumSq [1] = 1 by simp [sumSq]]; norm_num)
  · refine scale_solver_least_squares_and_recovery.2 [45] (by simp) ?_
    intro a ha
    rw [List.mem_singleton] at ha
    subst ha
    norm_num

/-- Helper: a convex combination along a segment stays between the
segment's endpoint values. -/
theorem lerp_between (t1 t2 v1 v2 x : ℚ) (h12 : t1 < t2) (hx1 : t1 ≤ x)
    (hx2 : x ≤ t2) :
    min v1 v2 ≤ v1 + (x - t1) * (v2 - v1) / (t2 - t1) ∧
    v1 + (x - t1) * (v2 - v1) / (t2 - t1) ≤ max v1 v2 := by
  have hd : 0 < t2 - t1 := by linarith
  have hθ1 : 0 ≤ (x - t1) / (t2 - t1) := div_nonneg (by linarith) hd.le
  have hθ2 : (x - t1) / (t2 - t1) ≤ 1 := (div_le_one hd).mpr (by linarith)
  have hval : v1 + (x - t1) * (v2 - v1) / (t2 - t1)
      = v1 + (x - t1) / (t2 - t1) * (v2 - v1) := by ring
  rw [hval]
  rcases le_total v1 v2 with h | h
  · rw [min_eq_left h, max_eq_right h]
    constructor
    · nlinarith [mul_nonneg hθ1 (show (0 : ℚ) ≤ v2 - v1 by linarith)]
    · nlinarith [mul_nonneg (show (0 : ℚ) ≤ 1 - (x - t1) / (t2 - t1) by linarith)
        (show (0 : ℚ) ≤ v2 - v1 by linarith)]
  · rw [min_eq_right h, max_eq_left h]
    constructor
    · nlinarith [mul_nonneg (show (0 : ℚ) ≤ 1 - (x - t1) / (t2 - t1) by linarith)
        (show (0 : ℚ) ≤ v1 - v2 by linarith)]
    · nlinarith [mul_nonneg hθ1 (show (0 : ℚ) ≤ v1 - v2 by linarith)]

/-- C8: every value `np.interp` produces over a strictly
timestamp-sorted vision series either equals an original vision sample
value (boundary clamp or exact timestamp match) or lies between the
values of the two consecutive original samples bounding the query
timestamp. -/
theorem interp_value_between_bounding_samples (x : ℚ) :
    ∀ pts : List (ℚ × ℚ), List.Chain' (fun p q => p.1 < q.1) pts → pts ≠ [] →
      (∃ p ∈ pts, interpSeg x pts = p.2) ∨
      (∃ l1 p q l2, pts = l1 ++ p :: q :: l2 ∧ p.1 ≤ x ∧ x ≤ q.1 ∧
        min p.2 q.2 ≤ interpSeg x pts ∧ interpSeg x pts ≤ max p.2 q.2)
  | [], _, hne => absurd rfl hne
  | [(t, v)], _, _ => Or.inl ⟨(t, v), by simp, rfl⟩
  | (t1, v1) :: (t2, v2) :: rest, hs, _ => by
      have h12 : t1 < t2 := (List.chain'_cons.mp hs).1
      by_cases h1 : x < t1
      · exact Or.inl ⟨(t1, v1), List.mem_cons_self _ _, by simp [interpSeg, h1]⟩
      · by_cases h2 : x ≤ t2
        · have heval : interpSeg x ((t1, v1) :: (t2, v2) :: rest)
              = v1 + (x - t1) * (v2 - v1) / (t2 - t1) := by
            simp [interpSeg, h1, h2]
          obtain ⟨hlo, hhi⟩ := lerp_between t1 t2 v1 v2 x h12 (le_of_not_lt h1) h2
          exact Or.inr ⟨[], (t1, v1), (t2, v2), rest, rfl, le_of_not_lt h1, h2,
            by rw [heval]; exact hlo, by rw [heval]; exact hhi⟩
        · have heval : interpSeg x ((t1, v1) :: (t2, v2) :: rest)
              = interpSeg x ((t2, v2) :: rest) := by
            simp [interpSeg, h1, h2]
          have hrec := interp_value_between_bounding_samples x ((t2, v2) :: rest)
            (List.chain'_cons.mp hs).2 (by simp)
          rcases hrec with ⟨p, hp, hv⟩ | ⟨l1, p, q, l2, hdec, hx1, hx2, hlo, hhi⟩
          · exact Or.inl ⟨p, List.mem_cons_of_mem _ hp, heval.trans hv⟩
          · exact Or.inr ⟨(t1, v1) :: l1, p, q, l2, by simp [hdec], hx1, hx2,
              by rw [heval]; exact hlo, by rw [heval]; exact hhi⟩

/-- Witness for C8 at a concrete in-range query. -/
theorem interp_value_between_bounding_samples_witness :
    (∃ p ∈ [((0 : ℚ), (0 : ℚ)), (10, 10)], interpSeg 5 [((0 : ℚ), (0 : ℚ)), (10, 10)] = p.2) ∨
    (∃ l1 p q l2, [((0 : ℚ), (0 : ℚ)), (10, 10)] = l1 ++ p :: q :: l2 ∧ p.1 ≤ 5 ∧ (5 : ℚ) ≤ q.1 ∧
      min p.2 q.2 ≤ interpSeg 5 [((0 : ℚ), (0 : ℚ)), (10, 10)] ∧
      interpSeg 5 [((0 : ℚ), (0 : ℚ)), (10, 10)] ≤ max p.2 q.2) :=
  interp_value_between_bounding_samples 5 [(0, 0), (10, 10)]
    (by simp [List.chain'_cons]) (by simp)

/-- C9: `save_results` writes the configuration only after explicit
confirmation, and the scale constant and the filter parameters are
confirmed independently: with neither confirmed nothing is written;
with only `k` confirmed the written config changes exactly the selected
side's scale constant; with only the filter parameters confirmed it
changes exactly the selected side's filter group. -/
theorem save_results_independent_confirmation (k : ℚ)
    (accepted : Option SideParams) (cfg : Config) (side : Side) (ansK ansF : Bool) :
    (ansK = false → (accepted = none ∨ ansF = false) →
      save_results k accepted cfg side ansK ansF = none) ∧
    (ansK = true → (accepted = none ∨ ansF = false) →
      save_results k accepted cfg side ansK ansF = some (setScale cfg side k) ∧
      scaleOf (setScale cfg side k) side = k ∧
      scaleOf (setScale cfg side k) (otherSide side) = scaleOf cfg (otherSide side) ∧
      butterSideOf (setScale cfg side k) side = butterSideOf cfg side ∧
      butterSideOf (setScale cfg side k) (otherSide side) = butterSideOf cfg (otherSide side) ∧
      (setScale cfg side k).butterOrder = cfg.butterOrder ∧
      (setScale cfg side k).butterCutoff = cfg.butterCutoff) ∧
    (∀ p, ansK = false → accepted = some p → ansF = true →
      save_results k accepted cfg side ansK ansF = some (setButterSide cfg side p) ∧
      butterSideOf (setButterSide cfg side p) side = some p ∧
      butterSideOf (setButterSide cfg side p) (otherSide side) = butterSideOf cfg (otherSide side) ∧
      scaleOf (setButterSide cfg side p) side = scaleOf cfg side ∧
      scaleOf (setButterSide cfg side p) (otherSide side) = scaleOf cfg (otherSide side) ∧
      (setButterSide cfg side p).butterOrder = cfg.butterOrder ∧
      (setButterSide cfg side p).butterCutoff = cfg.butterCutoff) := by
  cases side <;> cases ansK <;> cases ansF <;> rcases accepted with _ | p <;>
    simp [save_results, setScale, setButterSide, scaleOf, butterSideOf, otherSide]

/-- Witness for C9: only `k` confirmed at a concrete config. -/
theorem save_results_independent_confirmation_witness :
    save_results 3 none demoConfig Side.left true false =
      some (setScale demoConfig Side.left 3) ∧
    scaleOf (setScale demoConfig Side.left 3) Side.left = 3 ∧
    scaleOf (setScale demoConfig Side.left 3) (otherSide Side.left) =
      scaleOf demoConfig (otherSide Side.left) ∧
    butterSideOf (setScale demoConfig Side.left 3) Side.left =
      butterSideOf demoConfig Side.left ∧
    butterSideOf (setScale demoConfig Side.left 3) (otherSide Side.left) =
      butterSideOf demoConfig (otherSide Side.left) ∧
    (setScale demoConfig Side.left 3).butterOrder = demoConfig.butterOrder ∧
    (setScale demoConfig Side.left 3).butterCutoff = demoConfig.butterCutoff :=
  (save_results_independent_confirmation 3 none demoConfig Side.left true false).2.1
    rfl (Or.inl rfl)

/-- C10: the filter applied to the session is looked up from the
top-level `butterworth_filter.order` / `.cutoff_hz` keys (not the side
keys), while accepted parameters are saved under
`butterworth_filter.<side>` leaving the top-level keys untouched; so a
config whose parameters live only under side keys makes a run in which
the optimised parameters are not accepted in-session fail with a
missing-key error at the filter-application step. -/
theorem filter_lookup_misses_side_keys (c : Config)
    (optimised : Option SideParams) (useSession : Bool)
    (hmiss : c.butterCutoff = none ∨ c.butterOrder = none)
    (hno : optimised = none ∨ useSession = false) :
    (∃ msg, mainFilterLookup c optimised useSession = .error msg) ∧
    (∀ side p, butterSideOf (setButterSide c side p) side = some p ∧
      (setButterSide c side p).butterOrder = c.butterOrder ∧
      (setButterSide c side p).butterCutoff = c.butterCutoff) := by
  have hsess : sessionConfig c optimised useSession = c := by
    rcases hno with h | h
    · simp [sessionConfig, h]
    · rcases optimised with _ | p <;> simp [sessionConfig, h]
  constructor
  · rw [mainFilterLookup, hsess]
    rcases hmiss with h | h
    · exact ⟨"KeyError: cutoff_hz", by simp [apply_filter_lookup, h]⟩
    · rcases hc : c.butterCutoff with _ | cut
      · exact ⟨"KeyError: cutoff_hz", by simp [apply_filter_lookup, hc]⟩
      · exact ⟨"KeyError: order", by simp [apply_filter_lookup, hc, h]⟩
  · intro side p
    cases side <;> simp [setButterSide, butterSideOf]

/-- Helper: folding `searchStep` from an incumbent `b` returns the
first strict improvement chain's winner — an element beating the
incumbent and every element before it strictly, and every element
after it weakly; or the incumbent itself when nothing beats it. -/
theorem foldl_searchStep_first_argmin {α : Type} [LinearOrder α]
    (err : ℕ × ℚ → α) :
    ∀ (l : List (ℕ × ℚ)) (b : ℕ × ℚ),
      ∃ res, List.foldl (searchStep err) (some (b, err b)) l = some (res, err res) ∧
        ((res = b ∧ ∀ q ∈ l, err b ≤ err q) ∨
          (∃ l1 l2, l = l1 ++ res :: l2 ∧ err res < err b ∧
            (∀ q ∈ l1, err res < err q) ∧ (∀ q ∈ l2, err res ≤ err q)))
  | [], b => ⟨b, rfl, Or.inl ⟨rfl, by simp⟩⟩
  | a :: l, b => by
      by_cases hab : err a < err b
      · have hstep : searchStep err (some (b, err b)) a = some (a, err a) := by
          simp [searchStep, hab]
        obtain ⟨res, hfold, hc⟩ := foldl_searchStep_first_argmin err l a
        refine ⟨res, by rw [List.foldl_cons, hstep]; exact hfold, Or.inr ?_⟩
        rcases hc with ⟨rfl, hall⟩ | ⟨l1, l2, hl, hlt, h1, h2⟩
        · exact ⟨[], l, rfl, hab, by simp, hall⟩
        · refine ⟨a :: l1, l2, by simp [hl], hlt.trans hab, ?_, h2⟩
          intro q hq
          rcases List.mem_cons.mp hq with rfl | hq
          · exact hlt
          · exact h1 q hq
      · push_neg at hab
        have hstep : searchStep err (some (b, err b)) a = some (b, err b) := by
          simp [searchStep, not_lt.mpr hab]
        obtain ⟨res, hfold, hc⟩ := foldl_searchStep_first_argmin err l b
        refine ⟨res, by rw [List.foldl_cons, hstep]; exact hfold, ?_⟩
        rcases hc with ⟨rfl, hall⟩ | ⟨l1, l2, hl, hlt, h1, h2⟩
        · refine Or.inl ⟨rfl, ?_⟩
          intro q hq
          rcases List.mem_cons.mp hq with rfl | hq
          · exact hab
          · exact hall q hq
        · refine Or.inr ⟨a :: l1, l2, by simp [hl], hlt, ?_, h2⟩
          intro q hq
          rcases List.mem_cons.mp hq with rfl | hq
          · exact hlt.trans_le hab
          · exact h1 q hq

/-- Helper: folding from the initial `none` incumbent over a nonempty
list returns the first minimum of the list. -/
theorem foldl_none_first_argmin {α : Type} [LinearOrder α]
    (err : ℕ × ℚ → α) (p0 : ℕ × ℚ) (rest : List (ℕ × ℚ)) :
    ∃ p l1 l2, List.foldl (searchStep err) none (p0 :: rest) = some (p, err p) ∧
      p0 :: rest = l1 ++ p :: l2 ∧
      (∀ q ∈ l1, err p < err q) ∧
      (∀ q ∈ p0 :: rest, err p ≤ err q) := by
  have hstep : List.foldl (searchStep err) none (p0 :: rest) =
      List.foldl (searchStep err) (some (p0, err p0)) rest := rfl
  obtain ⟨res, hfold, hc⟩ := foldl_searchStep_first_argmin err rest p0
  rcases hc with ⟨rfl, hall⟩ | ⟨l1, l2, hl, hlt, hp1, hp2⟩
  · refine ⟨res, [], rest, hstep.trans hfold, rfl, by simp, ?_⟩
    intro q hq
    rcases List.mem_cons.mp hq with rfl | hq
    · exact le_rfl
    · exact hall q hq
  · refine ⟨res, p0 :: l1, l2, hstep.trans hfold, by simp [hl], ?_, ?_⟩
    · intro q hq
      rcases List.mem_cons.mp hq with rfl | hq
      · exact hlt
      · exact hp1 q hq
    · intro q hq
      rcases List.mem_cons.mp hq with rfl | hq
      · exact hlt.le
      · rw [hl] at hq
        rcases List.mem_append.mp hq with hq | hq
        · exact (hp1 q hq).le
        · rcases List.mem_cons.mp hq with rfl | hq
          · exact le_rfl
          · exact hp2 q hq

/-- Helper: the grid search returns the first pair (in
increasing-order-then-increasing-cutoff iteration order) achieving the
minimum error over the whole grid. -/
theorem optimise_first_argmin {α : Type} [LinearOrder α] (err : ℕ × ℚ → α) :
    ∃ p l1 l2, optimise_filter_parameters err = some (p, err p) ∧
      filterGrid = l1 ++ p :: l2 ∧
      (∀ q ∈ l1, err p < err q) ∧
      (∀ q ∈ filterGrid, err p ≤ err q) := by
  obtain ⟨p0, rest, hg⟩ := List.exists_cons_of_ne_nil (l := filterGrid) (by decide)
  obtain ⟨p, l1, l2, hfold, hdecomp, h1, h2⟩ := foldl_none_first_argmin err p0 rest
  refine ⟨p, l1, l2, ?_, ?_, h1, ?_⟩
  · rw [optimise_filter_parameters, hg]
    exact hfold
  · rw [hg, hdecomp]
  · intro q hq
    rw [hg] at hq
    exact h2 q hq

/-- C4: for every vision series, ground-truth series and filter design
(sample rate folded into `filt`), the grid search returns the pair from
order ∈ {2..6} × cutoff ∈ [0.1, 1.5) step 0.05 whose filtered vision
series has minimum RMSE against the ground truth, ties resolved in
favour of the first pair encountered under
increasing-order-then-increasing-cutoff iteration. -/
theorem grid_search_returns_first_rmse_argmin
    (filt : ℕ → ℚ → List ℝ → List ℝ) (windSpeed gt : List ℝ) :
    ∃ p l1 l2,
      optimise_filter_parameters (gridErr filt windSpeed gt) =
        some (p, gridErr filt windSpeed gt p) ∧
      filterGrid = l1 ++ p :: l2 ∧
      (∀ q ∈ l1, gridErr filt windSpeed gt p < gridErr filt windSpeed gt q) ∧
      (∀ q ∈ filterGrid, gridErr filt windSpeed gt p ≤ gridErr filt windSpeed gt q) :=
  optimise_first_argmin (gridErr filt windSpeed gt)

/-- Witness for C10 at a concrete side-keyed-only config. -/
theorem filter_lookup_misses_side_keys_witness :
    (∃ msg, mainFilterLookup demoConfig none false = .error msg) ∧
    (∀ side p, butterSideOf (setButterSide demoConfig side p) side = some p ∧
      (setButterSide demoConfig side p).butterOrder = demoConfig.butterOrder ∧
      (setButterSide demoConfig side p).butterCutoff = demoConfig.butterCutoff) :=
  filter_lookup_misses_side_keys demoConfig none false (Or.inl rfl) (Or.inl rfl)

/-! ## Concrete logs for the aligner claims -/

/-- A warm-up ground-truth row (the skipped prefix in concrete logs). -/
def gtFiller : LogRow := ⟨0, "ground_truth_serial", 0⟩

/-- A concrete persisted log whose post-warm-up ground-truth rows are
out of timestamp order (5 before 3). -/
def c5rows : List LogRow :=
  List.replicate 2700 gtFiller ++
    [⟨5, "ground_truth_serial", 50⟩, ⟨3, "ground_truth_serial", 30⟩,
      ⟨0, "vision_sensor", 0⟩, ⟨10, "vision_sensor", 10⟩]

/-- A concrete persisted log whose vision series has exactly one point
and whose ground-truth series has two post-warm-up points. -/
def c7rows : List LogRow :=
  List.replicate 2702 gtFiller ++ [⟨0, "vision_sensor", 7⟩]

theorem visionRows_c5 :
    visionRows c5rows = [⟨0, "vision_sensor", 0⟩, ⟨10, "vision_sensor", 10⟩] := by
  unfold visionRows c5rows
  rw [List.filter_append, List.filter_replicate]
  decide

theorem groundTruthRows_c5 :
    groundTruthRows c5rows =
      [⟨5, "ground_truth_serial", 50⟩, ⟨3, "ground_truth_serial", 30⟩] := by
  unfold groundTruthRows c5rows START_IDX
  rw [List.filter_append, List.filter_replicate, if_pos (by decide)]
  rw [List.drop_left' (List.length_replicate 2700 gtFiller)]
  decide

theorem visionRows_c7 : visionRows c7rows = [⟨0, "vision_sensor", 7⟩] := by
  unfold visionRows c7rows
  rw [List.filter_append, List.filter_replicate]
  decide

theorem groundTruthRows_c7 : groundTruthRows c7rows = [gtFiller, gtFiller] := by
  unfold groundTruthRows c7rows START_IDX
  rw [List.filter_append, List.filter_replicate, if_pos (by decide)]
  rw [show (2702 : ℕ) = 2700 + 2 from rfl, List.replicate_add]
  rw [List.append_assoc]
  rw [List.drop_left' (List.length_replicate 2700 gtFiller)]
  decide

/-- Counterexample to C5: a persisted log whose retained ground-truth
rows are out of timestamp order; `load_and_prepare_data` consumes them
in row order and its result differs from the timestamp-sorted result. -/
theorem aligner_does_not_resort_counterexample :
    load_and_prepare_data c5rows ≠ load_and_prepare_sorted c5rows := by
  have h1 : load_and_prepare_data c5rows =
      Except.ok ([5, 3],
        [⟨5, "ground_truth_serial", 50⟩, ⟨3, "ground_truth_serial", 30⟩]) := by
    unfold load_and_prepare_data
    rw [visionRows_c5, groundTruthRows_c5]
    norm_num [npInterp, interpSeg]
  have h2 : load_and_prepare_sorted c5rows =
      Except.ok ([3, 5],
        [⟨3, "ground_truth_serial", 30⟩, ⟨5, "ground_truth_serial", 50⟩]) := by
    unfold load_and_prepare_sorted
    rw [visionRows_c5, groundTruthRows_c5]
    norm_num [npInterp, interpSeg, List.insertionSort, List.orderedInsert, tsLE]
  rw [h1, h2]
  norm_num

/-- C5 (amended): the aligner performs no re-sort — it consumes each
series in persisted row order — so its result coincides with the
timestamp-sorted alignment exactly on logs whose per-source series are
already timestamp-sorted. -/
theorem aligner_equals_sorted_on_presorted_input (rows : List LogRow)
    (hv : List.Sorted tsLE (visionRows rows))
    (hg : List.Sorted tsLE (groundTruthRows rows)) :
    load_and_prepare_data rows = load_and_prepare_sorted rows := by
  unfold load_and_prepare_data load_and_prepare_sorted
  rw [hv.insertionSort_eq, hg.insertionSort_eq]

/-- Witness for the amended C5 on a trivially sorted log. -/
theorem aligner_equals_sorted_on_presorted_input_witness :
    load_and_prepare_data [] = load_and_prepare_sorted [] :=
  aligner_equals_sorted_on_presorted_input [] (by decide) (by decide)

/-- Counterexample to C6: a ground-truth series with unequal spacing;
the sample rate the code computes from the first interval differs from
the mean-interval rate the spec describes. -/
theorem sample_rate_counterexample :
    inferFs [0, 1000000000, 3000000000] ≠
      meanIntervalFs [0, 1000000000, 3000000000] := by
  norm_num [inferFs, meanIntervalFs]

/-- Helper: on a uniformly spaced series all consecutive differences
equal the common gap. -/
theorem diffs_of_uniform (d : ℚ) :
    ∀ ts : List ℚ, List.Chain' (fun a b => b - a = d) ts →
      List.zipWith (fun a b => b - a) ts ts.tail =
        List.replicate (ts.length - 1) d
  | [], _ => by simp
  | [t], _ => by simp
  | t0 :: t1 :: rest, h => by
      have h1 := (List.chain'_cons.mp h).1
      have hrec := diffs_of_uniform d (t1 :: rest) (List.chain'_cons.mp h).2
      simp only [List.tail_cons, List.zipWith_cons_cons] at hrec ⊢
      rw [h1, hrec]
      simp [List.replicate_succ]

/-- C6 (amended): the filter solver's sample rate is the reciprocal of
the interval between the first two ground-truth timestamps (in
seconds), which agrees with the spec's mean-interval rate exactly on
uniformly spaced series. -/
theorem sample_rate_from_first_interval (ts : List ℚ) (d : ℚ)
    (h2 : 2 ≤ ts.length) (hgap : List.Chain' (fun a b => b - a = d) ts) :
    inferFs ts = Except.ok (1 / (d / 1000000000)) ∧
    meanIntervalFs ts = Except.ok (1 / (d / 1000000000)) := by
  match ts, h2, hgap with
  | t0 :: t1 :: rest, _, hgap =>
    have h1 : t1 - t0 = d := (List.chain'_cons.mp hgap).1
    constructor
    · show Except.ok (1 / ((t1 - t0) / 1000000000)) = _
      rw [h1]
    · have hd := diffs_of_uniform d (t0 :: t1 :: rest) hgap
      show Except.ok (1 /
          (((List.zipWith (fun a b => b - a) (t0 :: t1 :: rest)
              (t0 :: t1 :: rest).tail).sum /
            (List.zipWith (fun a b => b - a) (t0 :: t1 :: rest)
              (t0 :: t1 :: rest).tail).length) / 1000000000)) = _
      rw [hd, List.sum_replicate, List.length_replicate]
      simp only [List.length_cons, Nat.add_sub_cancel]
      have hne : ((rest.length + 1 : ℕ) : ℚ) ≠ 0 :=
        Nat.cast_ne_zero.mpr (Nat.succ_ne_zero _)
      rw [nsmul_eq_mul, mul_div_cancel_left₀ _ hne]

/-- Witness for the amended C6 on a uniformly spaced series. -/
theorem sample_rate_from_first_interval_witness :
    inferFs [0, 1000000000, 2000000000] =
      Except.ok (1 / ((1000000000 : ℚ) / 1000000000)) ∧
    meanIntervalFs [0, 1000000000, 2000000000] =
      Except.ok (1 / ((1000000000 : ℚ) / 1000000000)) :=
  sample_rate_from_first_interval [0, 1000000000, 2000000000] 1000000000
    (by decide) (by norm_num [List.chain'_cons])

/-- Helper: `np.interp` with a nonempty sample-point array evaluates
every query. -/
theorem npInterp_ne_nil (xs : List ℚ) (pts : List (ℚ × ℚ)) (h : pts ≠ []) :
    npInterp xs pts = Except.ok (xs.map fun x => interpSeg x pts) := by
  rw [npInterp, if_neg (by simpa using h)]

/-- Counterexample to C7: a log whose vision series has exactly one
point (fewer than 2): the aligner neither reports nor aborts — it
returns a successful alignment, treating the vision series as
constant. -/
theorem aligner_one_point_vision_succeeds :
    load_and_prepare_data c7rows = Except.ok ([7, 7], [gtFiller, gtFiller]) := by
  unfold load_and_prepare_data
  rw [visionRows_c7, groundTruthRows_c7]
  norm_num [npInterp, interpSeg, gtFiller]

/-- C7 (amended): the aligner performs no series-length validation: it
fails only when the vision series is empty — and then by propagating
`np.interp`'s `ValueError` (an uncaught crash, not a report) — and
otherwise returns an alignment whatever the series lengths; it never
touches the configuration. -/
theorem aligner_no_length_validation (rows : List LogRow) :
    (visionRows rows = [] →
      load_and_prepare_data rows =
        Except.error "ValueError: array of sample points is empty") ∧
    (visionRows rows ≠ [] →
      load_and_prepare_data rows = Except.ok
        ((groundTruthRows rows).map fun r =>
          interpSeg r.timestamp
            ((visionRows rows).map fun s => (s.timestamp, s.measurement)),
          groundTruthRows rows)) := by
  constructor
  · intro h
    unfold load_and_prepare_data
    rw [h]
    rfl
  · intro h
    unfold load_and_prepare_data
    rw [npInterp_ne_nil _ _ (by simpa using h)]
    simp [List.map_map, Function.comp]

/-- Witness for the amended C7: empty-vision log errors, one-row
vision-only log aligns successfully. -/
theorem aligner_no_length_validation_witness :
    load_and_prepare_data [gtFiller] =
      Except.error "ValueError: array of sample points is empty" ∧
    load_and_prepare_data [⟨0, "vision_sensor", 7⟩] = Except.ok ([], []) := by
  constructor
  · exact (aligner_no_length_validation [gtFiller]).1 (by decide)
  · have h := (aligner_no_length_validation [⟨0, "vision_sensor", 7⟩]).2 (by decide)
    rw [h]
    decide

end Sensor
